import Mathlib

/-!
Shallow embedding of the `packruler/pretty-error` response-interception
middleware (Go).  The two interceptor implementations — the internal
`codeCatcher` of `pretty_error.go` and the exported `CodeCatcher` of
`httputil/code_catcher.go` — are modelled as explicit state machines over a
record of the interceptor's fields paired with the state of the wrapped real
response sink.  Machine integers (`int` status codes) are modelled as `Int`;
byte slices as `List Nat`; Go's `(value, error)` returns as pairs with an
`Option String` error component.
-/

/-- `http.Header`: a total map from (canonical) header name to the ordered
list of values for that name; a name that is absent maps to `[]`.  Key
canonicalisation is left implicit (keys are taken as already canonical). -/
abbrev Headers := String → List String

/-- Go `http.Header.Get`: the first value recorded for the name, or the empty
string when none is. -/
def headerGet (h : Headers) (name : String) : String :=
  (h name).headD ""

/-- Go `http.Header.Add`: appends one value at the end of the list for the
name, leaving every other name unchanged. -/
def headerAddVal (h : Headers) (name value : String) : Headers :=
  fun k => if k = name then h k ++ [value] else h k

/-- `httputil.CopyHeaders` (from the headers utility file):
`for k, vv := range src { dst[k] = append(dst[k], vv...) }` — for every name,
the source's values are appended after the destination's existing ones. -/
def CopyHeaders (dst src : Headers) : Headers :=
  fun k => dst k ++ src k

/-- `types.HTTPCodeRanges`: a slice of two-element blocks
`(block[0], block[1])` of Go `int` status bounds. -/
abbrev HTTPCodeRanges := List (Int × Int)

/-- The range-scanning loop shared verbatim by both `WriteHeader`
implementations: `for _, block := range ranges { if code >= block[0] && code
<= block[1] { ...; return } }` — true iff some block contains `code`, with
the scan stopping at the first hit. -/
def matchesRanges (code : Int) : HTTPCodeRanges → Bool
  | [] => false
  | block :: rest =>
      if block.1 ≤ code ∧ code ≤ block.2 then true else matchesRanges code rest

/-- The real response sink (`http.ResponseWriter`) behind the interceptor,
as observable state: its header map, the ordered list of status codes passed
to its `WriteHeader`, the flat list of body bytes passed to its `Write`, and
the number of `Flush` calls forwarded to it. -/
structure Sink where
  header : Headers
  statusCalls : List Int
  body : List Nat
  flushCount : Nat

/-- The real sink's `Write`: appends the bytes and reports
`(len(buf), nil)`. -/
def Sink.write (s : Sink) (buf : List Nat) : Sink × Nat × Option String :=
  ({ s with body := s.body ++ buf }, buf.length, none)

/-- The real sink's `WriteHeader`: records the status code. -/
def Sink.writeHeader (s : Sink) (code : Int) : Sink :=
  { s with statusCalls := s.statusCalls ++ [code] }

/-- The real sink's `Flush`. -/
def Sink.flush (s : Sink) : Sink :=
  { s with flushCount := s.flushCount + 1 }

/-- One upstream-handler operation on an interceptor: an explicit status
write, a body write, a flush, or a mutation of the map returned by the
interceptor's `Header()` (Go `Header().Add(name, value)`). -/
inductive Op where
  | writeHeader (code : Int)
  | write (buf : List Nat)
  | flush
  | headerAdd (name value : String)

namespace PrettyError

/-- The internal `codeCatcher` of `pretty_error.go` (its fields, with the
wrapped `responseWriter` carried separately in `State`). -/
structure codeCatcher where
  headerMap : Headers
  code : Int
  httpCodeRanges : HTTPCodeRanges
  caughtFilteredCode : Bool
  headersSent : Bool

/-- An internal interceptor paired with the state of its real sink. -/
structure State where
  cc : codeCatcher
  sink : Sink

/-- `newCodeCatcher`: fresh header map, code 200 ("If backend does not call
WriteHeader on us, we consider it's a 200."), both flags unset. -/
def newCodeCatcher (responseWriter : Sink) (ranges : HTTPCodeRanges) : State :=
  { cc := { headerMap := fun _ => []
            code := 200
            httpCodeRanges := ranges
            caughtFilteredCode := false
            headersSent := false }
    sink := responseWriter }

/-- `codeCatcher.Header()`: returns the private header map (the `nil` branch
cannot arise in the total-function model). -/
def State.Header (s : State) : Headers :=
  s.cc.headerMap

/-- `codeCatcher.getCode()`. -/
def State.getCode (s : State) : Int :=
  s.cc.code

/-- `codeCatcher.isFilteredCode()`. -/
def State.isFilteredCode (s : State) : Bool :=
  s.cc.caughtFilteredCode

/-- `codeCatcher.WriteHeader(code)`: no-op when `headersSent` or
`caughtFilteredCode`; otherwise records the code, scans the ranges and either
sets `caughtFilteredCode` (touching nothing on the real sink) or copies the
buffered headers into the real sink, writes the status there and sets
`headersSent`. -/
def State.WriteHeader (s : State) (code : Int) : State :=
  if s.cc.headersSent || s.cc.caughtFilteredCode then s
  else
    let cc1 := { s.cc with code := code }
    if matchesRanges cc1.code cc1.httpCodeRanges then
      { s with cc := { cc1 with caughtFilteredCode := true } }
    else
      let sink1 := { s.sink with header := CopyHeaders s.sink.header cc1.headerMap }
      { cc := { cc1 with headersSent := true }
        sink := sink1.writeHeader cc1.code }

/-- `codeCatcher.Write(buf)`: first `WriteHeader(cc.code)`, then either drop
the bytes reporting `(len(buf), nil)` when filtered, or forward them to the
real sink. -/
def State.Write (s : State) (buf : List Nat) : State × Nat × Option String :=
  let s1 := s.WriteHeader s.cc.code
  if s1.cc.caughtFilteredCode then
    (s1, buf.length, none)
  else
    let r := s1.sink.write buf
    ({ s1 with sink := r.1 }, r.2.1, r.2.2)

/-- `codeCatcher.Flush()`: `WriteHeader(cc.code)` then forward the flush. -/
def State.Flush (s : State) : State :=
  let s1 := s.WriteHeader s.cc.code
  { s1 with sink := s1.sink.flush }

/-- One upstream operation applied to the internal interceptor. -/
def State.step (s : State) : Op → State
  | Op.writeHeader c => s.WriteHeader c
  | Op.write buf => (s.Write buf).1
  | Op.flush => s.Flush
  | Op.headerAdd k v =>
      { s with cc := { s.cc with headerMap := headerAddVal s.cc.headerMap k v } }

/-- A sequence of upstream operations applied in order. -/
def State.run (s : State) : List Op → State
  | [] => s
  | op :: ops => (s.step op).run ops

end PrettyError

namespace Httputil

/-- The exported `CodeCatcher` of `httputil/code_catcher.go` (its fields,
with the embedded `http.ResponseWriter` carried separately in `State`). -/
structure CodeCatcher where
  buffer : List Nat
  lastModified : Bool
  wroteHeader : Bool
  headerMap : Headers
  code : Int
  httpCodeRanges : HTTPCodeRanges
  caughtFilteredCode : Bool
  headersSent : Bool

/-- An exported interceptor paired with the state of its real sink. -/
structure State where
  cc : CodeCatcher
  sink : Sink

/-- `NewCodeCatcher`: fresh header map, code 200, every flag unset, empty
buffer. -/
def NewCodeCatcher (responseWriter : Sink) (ranges : HTTPCodeRanges) : State :=
  { cc := { buffer := []
            lastModified := false
            wroteHeader := false
            headerMap := fun _ => []
            code := 200
            httpCodeRanges := ranges
            caughtFilteredCode := false
            headersSent := false }
    sink := responseWriter }

/-- `CodeCatcher.Header()`: returns the private header map (the `nil` branch
cannot arise in the total-function model). -/
def State.Header (s : State) : Headers :=
  s.cc.headerMap

/-- `CodeCatcher.GetCode()`. -/
def State.GetCode (s : State) : Int :=
  s.cc.code

/-- `CodeCatcher.IsFilteredCode()`. -/
def State.IsFilteredCode (s : State) : Bool :=
  s.cc.caughtFilteredCode

/-- `CodeCatcher.WriteHeader(code)`: textually the same logic as the internal
interceptor's — no-op when `headersSent` or `caughtFilteredCode`, else record
the code, scan the ranges, and either set `caughtFilteredCode` or copy the
buffered headers to the real sink, write the status and set `headersSent`. -/
def State.WriteHeader (s : State) (code : Int) : State :=
  if s.cc.headersSent || s.cc.caughtFilteredCode then s
  else
    let cc1 := { s.cc with code := code }
    if matchesRanges cc1.code cc1.httpCodeRanges then
      { s with cc := { cc1 with caughtFilteredCode := true } }
    else
      let sink1 := { s.sink with header := CopyHeaders s.sink.header cc1.headerMap }
      { cc := { cc1 with headersSent := true }
        sink := sink1.writeHeader cc1.code }

/-- `CodeCatcher.Write(buf)`: first `WriteHeader(codeCatcher.code)`, then —
the filtered-drop branch being commented out in the source — always forward
the bytes to the embedded real sink. -/
def State.Write (s : State) (buf : List Nat) : State × Nat × Option String :=
  let s1 := s.WriteHeader s.cc.code
  let r := s1.sink.write buf
  ({ s1 with sink := r.1 }, r.2.1, r.2.2)

/-- `CodeCatcher.Flush()`: `WriteHeader(codeCatcher.code)` then forward the
flush. -/
def State.Flush (s : State) : State :=
  let s1 := s.WriteHeader s.cc.code
  { s1 with sink := s1.sink.flush }

/-- One upstream operation applied to the exported interceptor. -/
def State.step (s : State) : Op → State
  | Op.writeHeader c => s.WriteHeader c
  | Op.write buf => (s.Write buf).1
  | Op.flush => s.Flush
  | Op.headerAdd k v =>
      { s with cc := { s.cc with headerMap := headerAddVal s.cc.headerMap k v } }

/-- A sequence of upstream operations applied in order. -/
def State.run (s : State) : List Op → State
  | [] => s
  | op :: ops => (s.step op).run ops

/-- `CodeCatcher.getHeader(name)`: reads the embedded real sink's header map
(`codeCatcher.ResponseWriter.Header().Get(...)`), not the private buffer. -/
def State.getHeader (s : State) (headerName : String) : String :=
  headerGet s.sink.header headerName

/-- `CodeCatcher.getContentEncoding()`. -/
def State.getContentEncoding (s : State) : String :=
  s.getHeader "Content-Encoding"

/-- Modelled from the spec: the compression codec lives in package
`compressutil`, which is not among the given sources.  Per the spec's codec
collaborator contract, `decode(buffer, encodingName) -> rawBytes | error` and
`encode(rawBytes, encodingName) -> encodedBytes | error`; each is modelled as
a function returning the Go-style pair of a byte slice and an optional
error. -/
structure Codec where
  decode : List Nat → String → List Nat × Option String
  encode : List Nat → String → List Nat × Option String

/-- `CodeCatcher.GetContent()`: returns
`compressutil.Decode(codeCatcher.GetBuffer(), encoding)` — byte result and
error alike are handed straight to the caller. -/
def State.GetContent (s : State) (codec : Codec) : List Nat × Option String :=
  codec.decode s.cc.buffer s.getContentEncoding

/-- `CodeCatcher.SetContent(data)`: `bodyBytes, _ :=
compressutil.Encode(data, encoding)` — only the byte component of the encode
result is kept, the error is bound to `_`; then `WriteHeader(200)` unless
`wroteHeader`, then the bytes are written to the embedded real sink (a write
error is only logged). -/
def State.SetContent (s : State) (codec : Codec) (data : List Nat) : State :=
  let bodyBytes := (codec.encode data s.getContentEncoding).1
  let s1 := if s.cc.wroteHeader then s else s.WriteHeader 200
  { s1 with sink := (s1.sink.write bodyBytes).1 }

end Httputil

/-- An inbound HTTP request, reduced to the fields the support gate reads. -/
structure Request where
  method : String
  headers : Headers

/-- Go `strings.Contains(s, sub)`: `sub` occurs as a contiguous substring of
`s` (always true for the empty `sub`). -/
def stringsContains (s sub : String) : Bool :=
  decide (sub.data <:+: s.data)

/-- `httputil.SupportsProcessing(request)`: reject non-`GET` methods, then
reject requests whose `Upgrade` header value contains `"websocket"`. -/
def SupportsProcessing (request : Request) : Bool :=
  if request.method ≠ "GET" then false
  else if stringsContains (headerGet request.headers "Upgrade") "websocket" then false
  else true

/-- The response writer `rewriteBody.ServeHTTP` hands to the next handler:
the real sink itself, or a fresh internal code catcher wrapping it. -/
inductive NextWriter where
  | unwrapped (sink : Sink)
  | wrapped (catcher : PrettyError.State)

/-- `rewriteBody.ServeHTTP`: when `SupportsProcessing` fails the next handler
receives the real response writer unwrapped; otherwise it receives
`newCodeCatcher(response, httpCodeRanges)`. -/
def serveHTTPWriter (response : Sink) (ranges : HTTPCodeRanges) (req : Request) : NextWriter :=
  if SupportsProcessing req then
    NextWriter.wrapped (PrettyError.newCodeCatcher response ranges)
  else
    NextWriter.unwrapped response

/-! Concrete instances used to evaluate the development on explicit inputs. -/

/-- A pristine real sink. -/
def sinkEx : Sink :=
  { header := fun _ => [], statusCalls := [], body := [], flushCount := 0 }

/-- An internal interceptor driven into the FILTERED state: ranges
`[(500, 599)]`, observed status 503. -/
def peFilteredEx : PrettyError.State :=
  (PrettyError.newCodeCatcher sinkEx [(500, 599)]).WriteHeader 503

/-- An internal interceptor driven into the COMMITTED state: ranges
`[(500, 599)]`, observed status 200. -/
def peCommittedEx : PrettyError.State :=
  (PrettyError.newCodeCatcher sinkEx [(500, 599)]).WriteHeader 200

/-- An exported interceptor driven into the FILTERED state: ranges
`[(400, 404)]`, observed status 404. -/
def huFilteredEx : Httputil.State :=
  (Httputil.NewCodeCatcher sinkEx [(400, 404)]).WriteHeader 404

/-- A second exported FILTERED interceptor: ranges `[(500, 599)]`, observed
status 503. -/
def huFilteredEx2 : Httputil.State :=
  (Httputil.NewCodeCatcher sinkEx [(500, 599)]).WriteHeader 503

/-- A fresh exported interceptor with empty ranges. -/
def huFreshEx : Httputil.State :=
  Httputil.NewCodeCatcher sinkEx []

/-- An internal interceptor whose sink and private buffer both already hold
`Set-Cookie` values, for exercising the additive header merge. -/
def peHeadersEx : PrettyError.State :=
  { cc := { headerMap := fun k => if k = "Set-Cookie" then ["buf1", "buf2"] else []
            code := 200
            httpCodeRanges := [(500, 599)]
            caughtFilteredCode := false
            headersSent := false }
    sink := { header := fun k => if k = "Set-Cookie" then ["real"] else []
              statusCalls := [], body := [], flushCount := 0 } }

/-- A codec whose encoder always fails, handing back its input bytes with an
error (the spec's conservative fallback). -/
def encodeFailCodec : Httputil.Codec :=
  { decode := fun b _ => (b, none)
    encode := fun d _ => (d, some "encode failed") }

/-- A codec that never fails and encodes as the identity. -/
def identityCodec : Httputil.Codec :=
  { decode := fun b _ => (b, none)
    encode := fun d _ => (d, none) }

/-- A codec whose decoder always fails. -/
def decodeFailCodec : Httputil.Codec :=
  { decode := fun b _ => (b, some "decode failed")
    encode := fun d _ => (d, none) }

/-- A non-GET request. -/
def reqPost : Request :=
  { method := "POST", headers := fun _ => [] }

/-! Helper lemmas about the internal interceptor. -/

/-- `WriteHeader` is the identity once either terminal flag is set. -/
theorem pe_writeHeader_terminal (s : PrettyError.State) (c : Int)
    (h : s.cc.headersSent = true ∨ s.cc.caughtFilteredCode = true) :
    s.WriteHeader c = s := by
  unfold PrettyError.State.WriteHeader
  rcases h with h | h <;> simp [h]

/-- The interceptor fields after a `Write` are those after the inner
`WriteHeader`. -/
theorem pe_write_cc (s : PrettyError.State) (buf : List Nat) :
    ((s.Write buf).1).cc = (s.WriteHeader s.cc.code).cc := by
  unfold PrettyError.State.Write
  cases h : (s.WriteHeader s.cc.code).cc.caughtFilteredCode <;>
    simp [h, Sink.write]

/-- The interceptor fields after a `Flush` are those after the inner
`WriteHeader`. -/
theorem pe_flush_cc (s : PrettyError.State) :
    (s.Flush).cc = (s.WriteHeader s.cc.code).cc := rfl

/-- `WriteHeader` never touches the sink's body. -/
theorem pe_writeHeader_body (s : PrettyError.State) (c : Int) :
    (s.WriteHeader c).sink.body = s.sink.body := by
  unfold PrettyError.State.WriteHeader
  by_cases h1 : (s.cc.headersSent || s.cc.caughtFilteredCode) = true
  · simp [h1]
  · by_cases h2 : matchesRanges c s.cc.httpCodeRanges = true <;>
      simp [h1, h2, Sink.writeHeader]

/-- One step from a FILTERED state leaves the sink's headers, status calls
and body alone and stays FILTERED. -/
theorem pe_step_filtered (s : PrettyError.State) (op : Op)
    (hf : s.cc.caughtFilteredCode = true) :
    (s.step op).sink.header = s.sink.header ∧
    (s.step op).sink.statusCalls = s.sink.statusCalls ∧
    (s.step op).sink.body = s.sink.body ∧
    (s.step op).cc.caughtFilteredCode = true := by
  have hwh : ∀ c, s.WriteHeader c = s := fun c =>
    pe_writeHeader_terminal s c (Or.inr hf)
  cases op with
  | writeHeader c => simp [PrettyError.State.step, hwh c, hf]
  | write buf => simp [PrettyError.State.step, PrettyError.State.Write, hwh, hf]
  | flush => simp [PrettyError.State.step, PrettyError.State.Flush, hwh, hf, Sink.flush]
  | headerAdd k v => simp [PrettyError.State.step, hf]

/-- A whole run from a FILTERED state leaves the sink's headers, status
calls and body alone and stays FILTERED. -/
theorem pe_run_filtered (s : PrettyError.State) (ops : List Op)
    (hf : s.cc.caughtFilteredCode = true) :
    (s.run ops).sink.header = s.sink.header ∧
    (s.run ops).sink.statusCalls = s.sink.statusCalls ∧
    (s.run ops).sink.body = s.sink.body ∧
    (s.run ops).cc.caughtFilteredCode = true := by
  induction ops generalizing s with
  | nil => simp [PrettyError.State.run, hf]
  | cons op ops ih =>
      obtain ⟨h1, h2, h3, h4⟩ := pe_step_filtered s op hf
      obtain ⟨g1, g2, g3, g4⟩ := ih (s.step op) h4
      exact ⟨g1.trans h1, g2.trans h2, g3.trans h3, g4⟩

/-- One step from a COMMITTED state leaves the sink's headers alone and
stays COMMITTED. -/
theorem pe_step_sent (s : PrettyError.State) (op : Op)
    (hs : s.cc.headersSent = true) :
    (s.step op).sink.header = s.sink.header ∧
    (s.step op).cc.headersSent = true := by
  have hwh : ∀ c, s.WriteHeader c = s := fun c =>
    pe_writeHeader_terminal s c (Or.inl hs)
  cases op with
  | writeHeader c => simp [PrettyError.State.step, hwh c, hs]
  | write buf =>
      cases hf : s.cc.caughtFilteredCode <;>
        simp [PrettyError.State.step, PrettyError.State.Write, hwh, hs, hf, Sink.write]
  | flush => simp [PrettyError.State.step, PrettyError.State.Flush, hwh, hs, Sink.flush]
  | headerAdd k v => simp [PrettyError.State.step, hs]

/-- A whole run from a COMMITTED state leaves the sink's headers alone. -/
theorem pe_run_sent (s : PrettyError.State) (ops : List Op)
    (hs : s.cc.headersSent = true) :
    (s.run ops).sink.header = s.sink.header ∧
    (s.run ops).cc.headersSent = true := by
  induction ops generalizing s with
  | nil => simp [PrettyError.State.run, hs]
  | cons op ops ih =>
      obtain ⟨h1, h2⟩ := pe_step_sent s op hs
      obtain ⟨g1, g2⟩ := ih (s.step op) h2
      exact ⟨g1.trans h1, g2⟩

/-- `WriteHeader` preserves mutual exclusion of the two flags. -/
theorem pe_writeHeader_inv (s : PrettyError.State) (c : Int)
    (h : (s.cc.headersSent && s.cc.caughtFilteredCode) = false) :
    ((s.WriteHeader c).cc.headersSent && (s.WriteHeader c).cc.caughtFilteredCode) = false := by
  unfold PrettyError.State.WriteHeader
  by_cases h1 : (s.cc.headersSent || s.cc.caughtFilteredCode) = true
  · simp [h1, h]
  · simp only [Bool.or_eq_true, not_or, Bool.not_eq_true] at h1
    by_cases h2 : matchesRanges c s.cc.httpCodeRanges = true <;>
      simp [h1.1, h1.2, h2]

/-- One step preserves mutual exclusion of the two flags. -/
theorem pe_step_inv (s : PrettyError.State) (op : Op)
    (h : (s.cc.headersSent && s.cc.caughtFilteredCode) = false) :
    ((s.step op).cc.headersSent && (s.step op).cc.caughtFilteredCode) = false := by
  cases op with
  | writeHeader c => exact pe_writeHeader_inv s c h
  | write buf =>
      have := pe_writeHeader_inv s s.cc.code h
      simpa [PrettyError.State.step, pe_write_cc] using this
  | flush =>
      have := pe_writeHeader_inv s s.cc.code h
      simpa [PrettyError.State.step, pe_flush_cc] using this
  | headerAdd k v => simpa [PrettyError.State.step] using h

/-- A whole run preserves mutual exclusion of the two flags. -/
theorem pe_run_inv (s : PrettyError.State) (ops : List Op)
    (h : (s.cc.headersSent && s.cc.caughtFilteredCode) = false) :
    ((s.run ops).cc.headersSent && (s.run ops).cc.caughtFilteredCode) = false := by
  induction ops generalizing s with
  | nil => simpa [PrettyError.State.run] using h
  | cons op ops ih => exact ih (s.step op) (pe_step_inv s op h)

/-! Helper lemmas about the exported interceptor. -/

/-- `WriteHeader` is the identity once either terminal flag is set. -/
theorem hu_writeHeader_terminal (t : Httputil.State) (c : Int)
    (h : t.cc.headersSent = true ∨ t.cc.caughtFilteredCode = true) :
    t.WriteHeader c = t := by
  unfold Httputil.State.WriteHeader
  rcases h with h | h <;> simp [h]

/-- The interceptor fields after a `Write` are those after the inner
`WriteHeader`. -/
theorem hu_write_cc (t : Httputil.State) (buf : List Nat) :
    ((t.Write buf).1).cc = (t.WriteHeader t.cc.code).cc := rfl

/-- The interceptor fields after a `Flush` are those after the inner
`WriteHeader`. -/
theorem hu_flush_cc (t : Httputil.State) :
    (t.Flush).cc = (t.WriteHeader t.cc.code).cc := rfl

/-- `WriteHeader` never touches the sink's body. -/
theorem hu_writeHeader_body (t : Httputil.State) (c : Int) :
    (t.WriteHeader c).sink.body = t.sink.body := by
  unfold Httputil.State.WriteHeader
  by_cases h1 : (t.cc.headersSent || t.cc.caughtFilteredCode) = true
  · simp [h1]
  · by_cases h2 : matchesRanges c t.cc.httpCodeRanges = true <;>
      simp [h1, h2, Sink.writeHeader]

/-- One step from a FILTERED state leaves the sink's headers and status
calls alone and stays FILTERED (the body can grow: `Write` forwards). -/
theorem hu_step_filtered (t : Httputil.State) (op : Op)
    (hf : t.cc.caughtFilteredCode = true) :
    (t.step op).sink.header = t.sink.header ∧
    (t.step op).sink.statusCalls = t.sink.statusCalls ∧
    (t.step op).cc.caughtFilteredCode = true := by
  have hwh : ∀ c, t.WriteHeader c = t := fun c =>
    hu_writeHeader_terminal t c (Or.inr hf)
  cases op with
  | writeHeader c => simp [Httputil.State.step, hwh c, hf]
  | write buf => simp [Httputil.State.step, Httputil.State.Write, hwh, hf, Sink.write]
  | flush => simp [Httputil.State.step, Httputil.State.Flush, hwh, hf, Sink.flush]
  | headerAdd k v => simp [Httputil.State.step, hf]

/-- A whole run from a FILTERED state leaves the sink's headers and status
calls alone and stays FILTERED. -/
theorem hu_run_filtered (t : Httputil.State) (ops : List Op)
    (hf : t.cc.caughtFilteredCode = true) :
    (t.run ops).sink.header = t.sink.header ∧
    (t.run ops).sink.statusCalls = t.sink.statusCalls ∧
    (t.run ops).cc.caughtFilteredCode = true := by
  induction ops generalizing t with
  | nil => simp [Httputil.State.run, hf]
  | cons op ops ih =>
      obtain ⟨h1, h2, h3⟩ := hu_step_filtered t op hf
      obtain ⟨g1, g2, g3⟩ := ih (t.step op) h3
      exact ⟨g1.trans h1, g2.trans h2, g3⟩

/-- One step from a COMMITTED state leaves the sink's headers alone and
stays COMMITTED. -/
theorem hu_step_sent (t : Httputil.State) (op : Op)
    (hs : t.cc.headersSent = true) :
    (t.step op).sink.header = t.sink.header ∧
    (t.step op).cc.headersSent = true := by
  have hwh : ∀ c, t.WriteHeader c = t := fun c =>
    hu_writeHeader_terminal t c (Or.inl hs)
  cases op with
  | writeHeader c => simp [Httputil.State.step, hwh c, hs]
  | write buf => simp [Httputil.State.step, Httputil.State.Write, hwh, hs, Sink.write]
  | flush => simp [Httputil.State.step, Httputil.State.Flush, hwh, hs, Sink.flush]
  | headerAdd k v => simp [Httputil.State.step, hs]

/-- A whole run from a COMMITTED state leaves the sink's headers alone. -/
theorem hu_run_sent (t : Httputil.State) (ops : List Op)
    (hs : t.cc.headersSent = true) :
    (t.run ops).sink.header = t.sink.header ∧
    (t.run ops).cc.headersSent = true := by
  induction ops generalizing t with
  | nil => simp [Httputil.State.run, hs]
  | cons op ops ih =>
      obtain ⟨h1, h2⟩ := hu_step_sent t op hs
      obtain ⟨g1, g2⟩ := ih (t.step op) h2
      exact ⟨g1.trans h1, g2⟩

/-- `WriteHeader` preserves mutual exclusion of the two flags. -/
theorem hu_writeHeader_inv (t : Httputil.State) (c : Int)
    (h : (t.cc.headersSent && t.cc.caughtFilteredCode) = false) :
    ((t.WriteHeader c).cc.headersSent && (t.WriteHeader c).cc.caughtFilteredCode) = false := by
  unfold Httputil.State.WriteHeader
  by_cases h1 : (t.cc.headersSent || t.cc.caughtFilteredCode) = true
  · simp [h1, h]
  · simp only [Bool.or_eq_true, not_or, Bool.not_eq_true] at h1
    by_cases h2 : matchesRanges c t.cc.httpCodeRanges = true <;>
      simp [h1.1, h1.2, h2]

/-- One step preserves mutual exclusion of the two flags. -/
theorem hu_step_inv (t : Httputil.State) (op : Op)
    (h : (t.cc.headersSent && t.cc.caughtFilteredCode) = false) :
    ((t.step op).cc.headersSent && (t.step op).cc.caughtFilteredCode) = false := by
  cases op with
  | writeHeader c => exact hu_writeHeader_inv t c h
  | write buf =>
      have := hu_writeHeader_inv t t.cc.code h
      simpa [Httputil.State.step, hu_write_cc] using this
  | flush =>
      have := hu_writeHeader_inv t t.cc.code h
      simpa [Httputil.State.step, hu_flush_cc] using this
  | headerAdd k v => simpa [Httputil.State.step] using h

/-- A whole run preserves mutual exclusion of the two flags. -/
theorem hu_run_inv (t : Httputil.State) (ops : List Op)
    (h : (t.cc.headersSent && t.cc.caughtFilteredCode) = false) :
    ((t.run ops).cc.headersSent && (t.run ops).cc.caughtFilteredCode) = false := by
  induction ops generalizing t with
  | nil => simpa [Httputil.State.run] using h
  | cons op ops ih => exact ih (t.step op) (hu_step_inv t op h)

/-- The range scan succeeds exactly when some block contains the code. -/
theorem matchesRanges_iff (code : Int) (R : HTTPCodeRanges) :
    matchesRanges code R = true ↔ ∃ p ∈ R, p.1 ≤ code ∧ code ≤ p.2 := by
  induction R with
  | nil => simp [matchesRanges]
  | cons b rest ih =>
      by_cases h : b.1 ≤ code ∧ code ≤ b.2
      · simp [matchesRanges, h]
      · simp [matchesRanges, h, ih]

/-- On a fresh internal interceptor, a status-setting call records the code
and resolves the two flags from the range match. -/
theorem pe_fresh_writeHeader (sink : Sink) (ranges : HTTPCodeRanges) (c : Int) :
    ((PrettyError.newCodeCatcher sink ranges).WriteHeader c).cc.code = c ∧
    ((PrettyError.newCodeCatcher sink ranges).WriteHeader c).cc.caughtFilteredCode
      = matchesRanges c ranges ∧
    ((PrettyError.newCodeCatcher sink ranges).WriteHeader c).cc.headersSent
      = !matchesRanges c ranges := by
  unfold PrettyError.newCodeCatcher PrettyError.State.WriteHeader
  by_cases m : matchesRanges c ranges = true <;> simp [m]

/-! The claims. -/

/-- C3: from a state where neither terminal flag is set, a status-setting
call classifies the code as filtered exactly when some configured range
`(low, high)` has `low ≤ code` and `code ≤ high` (both ends inclusive), for
both interceptor implementations; the characterization depends only on the
code and the configured ranges. -/
theorem C3_filter_classification :
    (∀ (s : PrettyError.State) (c : Int),
       s.cc.headersSent = false → s.cc.caughtFilteredCode = false →
       ((s.WriteHeader c).cc.caughtFilteredCode = true ↔
         ∃ p ∈ s.cc.httpCodeRanges, p.1 ≤ c ∧ c ≤ p.2)) ∧
    (∀ (t : Httputil.State) (c : Int),
       t.cc.headersSent = false → t.cc.caughtFilteredCode = false →
       ((t.WriteHeader c).cc.caughtFilteredCode = true ↔
         ∃ p ∈ t.cc.httpCodeRanges, p.1 ≤ c ∧ c ≤ p.2)) := by
  constructor
  · intro s c hs hf
    rw [← matchesRanges_iff]
    unfold PrettyError.State.WriteHeader
    by_cases h2 : matchesRanges c s.cc.httpCodeRanges = true <;> simp [hs, hf, h2]
  · intro t c hs hf
    rw [← matchesRanges_iff]
    unfold Httputil.State.WriteHeader
    by_cases h2 : matchesRanges c t.cc.httpCodeRanges = true <;> simp [hs, hf, h2]

/-- C3 witness: concrete interceptor with ranges `[(500, 599)]` classifies
status 503 as filtered. -/
theorem C3_witness :
    ((PrettyError.newCodeCatcher sinkEx [(500, 599)]).WriteHeader 503).cc.caughtFilteredCode = true :=
  (C3_filter_classification.1 (PrettyError.newCodeCatcher sinkEx [(500, 599)]) 503 rfl rfl).mpr
    (by decide)

/-- C4: along every operation sequence from a fresh interceptor, the
`headersSent` and `caughtFilteredCode` flags are never both set, for both
implementations. -/
theorem C4_flags_never_both :
    ∀ (sink : Sink) (ranges : HTTPCodeRanges) (ops : List Op),
      (((PrettyError.newCodeCatcher sink ranges).run ops).cc.headersSent &&
       ((PrettyError.newCodeCatcher sink ranges).run ops).cc.caughtFilteredCode) = false ∧
      (((Httputil.NewCodeCatcher sink ranges).run ops).cc.headersSent &&
       ((Httputil.NewCodeCatcher sink ranges).run ops).cc.caughtFilteredCode) = false :=
  fun _ _ ops => ⟨pe_run_inv _ ops rfl, hu_run_inv _ ops rfl⟩

/-- C5: once either terminal flag is set (FILTERED or COMMITTED), a further
status-setting call with any code leaves the whole state — recorded status,
both flags, and the real sink — unchanged, for both implementations. -/
theorem C5_terminal_writeHeader_noop :
    (∀ (s : PrettyError.State) (c : Int),
       s.cc.headersSent = true ∨ s.cc.caughtFilteredCode = true →
       s.WriteHeader c = s) ∧
    (∀ (t : Httputil.State) (c : Int),
       t.cc.headersSent = true ∨ t.cc.caughtFilteredCode = true →
       t.WriteHeader c = t) :=
  ⟨pe_writeHeader_terminal, hu_writeHeader_terminal⟩

/-- C5 witness: a FILTERED interceptor ignores a later status 201. -/
theorem C5_witness : peFilteredEx.WriteHeader 201 = peFilteredEx :=
  C5_terminal_writeHeader_noop.1 peFilteredEx 201 (Or.inr rfl)

/-- C6: committing a non-filtered status merges the private header buffer
into the real sink additively — for every name, the buffered values are
appended, in order, after the values the sink already holds — for both
implementations. -/
theorem C6_commit_additive :
    (∀ (s : PrettyError.State) (c : Int),
       s.cc.headersSent = false → s.cc.caughtFilteredCode = false →
       matchesRanges c s.cc.httpCodeRanges = false →
       ∀ k, (s.WriteHeader c).sink.header k = s.sink.header k ++ s.cc.headerMap k) ∧
    (∀ (t : Httputil.State) (c : Int),
       t.cc.headersSent = false → t.cc.caughtFilteredCode = false →
       matchesRanges c t.cc.httpCodeRanges = false →
       ∀ k, (t.WriteHeader c).sink.header k = t.sink.header k ++ t.cc.headerMap k) := by
  constructor
  · intro s c hs hf hm k
    unfold PrettyError.State.WriteHeader
    simp [hs, hf, hm, CopyHeaders, Sink.writeHeader]
  · intro t c hs hf hm k
    unfold Httputil.State.WriteHeader
    simp [hs, hf, hm, CopyHeaders, Sink.writeHeader]

/-- C6 witness: a sink already holding `Set-Cookie: real` and a buffer
holding two further values ends with all three, in order. -/
theorem C6_witness :
    (peHeadersEx.WriteHeader 200).sink.header "Set-Cookie" = ["real", "buf1", "buf2"] := by
  have h := C6_commit_additive.1 peHeadersEx 200 rfl rfl (by decide) "Set-Cookie"
  simpa [peHeadersEx] using h

/-- C7: when the upstream handler never sets a status, the first body write
and the first flush each trigger the transition with the default status 200,
and the range matcher is evaluated against 200. -/
theorem C7_default_status_200 :
    ∀ (sink : Sink) (ranges : HTTPCodeRanges) (buf : List Nat),
      (((PrettyError.newCodeCatcher sink ranges).Write buf).1).cc.code = 200 ∧
      (((PrettyError.newCodeCatcher sink ranges).Write buf).1).cc.caughtFilteredCode
        = matchesRanges 200 ranges ∧
      (((PrettyError.newCodeCatcher sink ranges).Write buf).1).cc.headersSent
        = !matchesRanges 200 ranges ∧
      ((PrettyError.newCodeCatcher sink ranges).Flush).cc.code = 200 ∧
      ((PrettyError.newCodeCatcher sink ranges).Flush).cc.caughtFilteredCode
        = matchesRanges 200 ranges ∧
      ((PrettyError.newCodeCatcher sink ranges).Flush).cc.headersSent
        = !matchesRanges 200 ranges := by
  intro sink ranges buf
  have h := pe_fresh_writeHeader sink ranges 200
  have hw := pe_write_cc (PrettyError.newCodeCatcher sink ranges) buf
  have hf := pe_flush_cc (PrettyError.newCodeCatcher sink ranges)
  have hc : (PrettyError.newCodeCatcher sink ranges).cc.code = 200 := rfl
  rw [hc] at hw hf
  rw [hw, hf]
  exact ⟨h.1, h.2.1, h.2.2, h.1, h.2.1, h.2.2⟩

/-- C8: the support gate accepts exactly the `GET` requests whose `Upgrade`
header value does not contain `"websocket"`, and a rejected request reaches
the next handler with the real sink unwrapped. -/
theorem C8_support_gate :
    (∀ req : Request,
       SupportsProcessing req = true ↔
         (req.method = "GET" ∧
          stringsContains (headerGet req.headers "Upgrade") "websocket" = false)) ∧
    (∀ (req : Request) (response : Sink) (ranges : HTTPCodeRanges),
       SupportsProcessing req = false →
       serveHTTPWriter response ranges req = NextWriter.unwrapped response) := by
  constructor
  · intro req
    unfold SupportsProcessing
    by_cases hm : req.method = "GET"
    · cases hc : stringsContains (headerGet req.headers "Upgrade") "websocket" <;>
        simp [hm, hc]
    · simp [hm]
  · intro req response ranges h
    unfold serveHTTPWriter
    simp [h]

/-- C8 witness: a POST request is rejected and passed through unwrapped. -/
theorem C8_witness : serveHTTPWriter sinkEx [] reqPost = NextWriter.unwrapped sinkEx :=
  C8_support_gate.2 reqPost sinkEx [] (by decide)

/-- C10: `Header()` always returns the private header buffer, for both
implementations, and once the status has been committed no further sequence
of interceptor operations changes the real sink's headers. -/
theorem C10_header_private :
    (∀ s : PrettyError.State, s.Header = s.cc.headerMap) ∧
    (∀ t : Httputil.State, t.Header = t.cc.headerMap) ∧
    (∀ (s : PrettyError.State) (ops : List Op), s.cc.headersSent = true →
       (s.run ops).sink.header = s.sink.header) ∧
    (∀ (t : Httputil.State) (ops : List Op), t.cc.headersSent = true →
       (t.run ops).sink.header = t.sink.header) :=
  ⟨fun _ => rfl, fun _ => rfl,
   fun s ops hs => (pe_run_sent s ops hs).1,
   fun t ops hs => (hu_run_sent t ops hs).1⟩

/-- C10 witness: after committing status 200, a header mutation, a body
write and a flush leave the sink's headers as they were at commit time. -/
theorem C10_witness :
    (peCommittedEx.run [Op.headerAdd "X-Test" "v", Op.write [1], Op.flush]).sink.header
      = peCommittedEx.sink.header :=
  C10_header_private.2.2.1 peCommittedEx [Op.headerAdd "X-Test" "v", Op.write [1], Op.flush] rfl

/-- C1 counterexample: the exported `CodeCatcher` (ranges `[(400, 404)]`,
status 404, hence FILTERED) forwards a body write of one byte to the real
sink, which therefore receives a nonzero number of bytes. -/
theorem C1_counterexample :
    huFilteredEx.cc.caughtFilteredCode = true ∧
    huFilteredEx.sink.body = [] ∧
    ((huFilteredEx.Write [7]).1).sink.body = [7] :=
  ⟨rfl, rfl, rfl⟩

/-- C1 amended: in FILTERED state every body write returns success with the
full byte count; the internal `codeCatcher` leaves the whole state (hence
the real sink) untouched, while the exported `CodeCatcher` forwards every
byte of the call to the real sink. -/
theorem C1_amended_filtered_write :
    (∀ (s : PrettyError.State) (buf : List Nat), s.cc.caughtFilteredCode = true →
       s.Write buf = (s, buf.length, none)) ∧
    (∀ (t : Httputil.State) (buf : List Nat), t.cc.caughtFilteredCode = true →
       t.Write buf =
         ({ t with sink := { t.sink with body := t.sink.body ++ buf } },
          buf.length, none)) := by
  constructor
  · intro s buf hf
    unfold PrettyError.State.Write
    rw [pe_writeHeader_terminal s s.cc.code (Or.inr hf)]
    simp [hf]
  · intro t buf hf
    unfold Httputil.State.Write
    rw [hu_writeHeader_terminal t t.cc.code (Or.inr hf)]
    simp [Sink.write]

/-- C1 witness: a concrete FILTERED internal interceptor dropping three
bytes. -/
theorem C1_witness : peFilteredEx.Write [1, 2, 3] = (peFilteredEx, 3, none) :=
  C1_amended_filtered_write.1 peFilteredEx [1, 2, 3] rfl

/-- C2 counterexample: on the exported `CodeCatcher` (ranges `[(500, 599)]`,
status 503, hence FILTERED) a body-write operation changes the real sink's
body from `[]` to `[9]`. -/
theorem C2_counterexample :
    huFilteredEx2.cc.caughtFilteredCode = true ∧
    huFilteredEx2.sink.body = [] ∧
    (huFilteredEx2.step (Op.write [9])).sink.body = [9] :=
  ⟨rfl, rfl, rfl⟩

/-- C2 amended: from a FILTERED state, no sequence of operations changes the
real sink's headers or status calls and the state stays FILTERED, for both
implementations; the internal `codeCatcher` additionally never writes a byte
to the real sink, while the exported `CodeCatcher` may (its `Write`
forwards). -/
theorem C2_amended_filtered_frame :
    (∀ (s : PrettyError.State) (ops : List Op), s.cc.caughtFilteredCode = true →
       (s.run ops).sink.header = s.sink.header ∧
       (s.run ops).sink.statusCalls = s.sink.statusCalls ∧
       (s.run ops).sink.body = s.sink.body ∧
       (s.run ops).cc.caughtFilteredCode = true) ∧
    (∀ (t : Httputil.State) (ops : List Op), t.cc.caughtFilteredCode = true →
       (t.run ops).sink.header = t.sink.header ∧
       (t.run ops).sink.statusCalls = t.sink.statusCalls ∧
       (t.run ops).cc.caughtFilteredCode = true) :=
  ⟨fun s ops hf => pe_run_filtered s ops hf,
   fun t ops hf => hu_run_filtered t ops hf⟩

/-- C2 witness: a FILTERED internal interceptor absorbs a write, a second
status call and a flush without the sink seeing status or bytes. -/
theorem C2_witness :
    (peFilteredEx.run [Op.write [4], Op.writeHeader 200, Op.flush]).sink.statusCalls = [] ∧
    (peFilteredEx.run [Op.write [4], Op.writeHeader 200, Op.flush]).sink.body = [] ∧
    (peFilteredEx.run [Op.write [4], Op.writeHeader 200, Op.flush]).cc.caughtFilteredCode = true := by
  have h := C2_amended_filtered_frame.1 peFilteredEx [Op.write [4], Op.writeHeader 200, Op.flush] rfl
  exact ⟨h.2.1.trans rfl, h.2.2.1.trans rfl, h.2.2.2⟩

/-- C9 counterexample: `SetContent` produces exactly the same state whether
the encoder failed or succeeded on the same bytes — the encode error is
silently discarded, not surfaced. -/
theorem C9_counterexample :
    huFreshEx.SetContent encodeFailCodec [1, 2] = huFreshEx.SetContent identityCodec [1, 2] :=
  rfl

/-- C9 amended: `GetContent` hands the decode error straight to the caller;
`SetContent` silently discards the encode error — its outcome depends only
on the byte component the encoder returns — and whenever the encoder hands
back its input bytes (the spec's conservative fallback on failure), those
original bytes are what reaches the real sink. -/
theorem C9_amended_codec_errors :
    (∀ (t : Httputil.State) (codec : Httputil.Codec) (bs : List Nat) (e : String),
       codec.decode t.cc.buffer t.getContentEncoding = (bs, some e) →
       t.GetContent codec = (bs, some e)) ∧
    (∀ (t : Httputil.State) (c1 c2 : Httputil.Codec) (data : List Nat),
       (c1.encode data t.getContentEncoding).1 = (c2.encode data t.getContentEncoding).1 →
       t.SetContent c1 data = t.SetContent c2 data) ∧
    (∀ (t : Httputil.State) (codec : Httputil.Codec) (data : List Nat),
       (codec.encode data t.getContentEncoding).1 = data →
       (t.SetContent codec data).sink.body = t.sink.body ++ data) := by
  refine ⟨?_, ?_, ?_⟩
  · intro t codec bs e h
    unfold Httputil.State.GetContent
    exact h
  · intro t c1 c2 data h
    unfold Httputil.State.SetContent
    rw [h]
  · intro t codec data h
    unfold Httputil.State.SetContent
    rw [h]
    by_cases hw : t.cc.wroteHeader = true
    · simp [hw, Sink.write]
    · simp [hw, Sink.write, hu_writeHeader_body]

/-- C9 witness: a failing decode reaches the caller of `GetContent`, and a
failing encode that hands back its input leads `SetContent` to forward the
original bytes. -/
theorem C9_witness :
    huFreshEx.GetContent decodeFailCodec = ([], some "decode failed") ∧
    (huFreshEx.SetContent encodeFailCodec [3]).sink.body = [3] := by
  constructor
  · exact C9_amended_codec_errors.1 huFreshEx decodeFailCodec [] "decode failed" rfl
  · exact (C9_amended_codec_errors.2.2 huFreshEx encodeFailCodec [3] rfl).trans rfl
